import Mathlib

/-!
Shallow embedding of the adaptation core of the idb library
(src/build/idb.js and the duplicated module body in src/unnamed/part_000).

The embedding models:
  - the Identity Cache (transformCache / reverseTransformCache WeakMaps)
    together with wrap / unwrap and the allocation of proxies, wrapper
    functions and promises (object identity is modeled by numeric ids
    drawn from a state counter);
  - promisifyRequest and cacheDonePromiseForTransaction, split into their
    identity-level allocation effect and the event-listener behaviour of
    the created promises;
  - the proxy trap chain: the base idbProxyTraps, the convenience-method
    layer, and the cursor-iteration layer, composed exactly as the two
    addTraps calls compose them;
  - getMethod for both the read family (including the FromIndex variants)
    and the write family;
  - wrapFunction call behaviour, including the cursor-advance special case;
  - the iterate async generator at the level of its yield sequence.

Raw native IndexedDB objects are opaque: an Env record assigns each raw id
its instanceof classification and the answers of the engine at the
boundary (property tables, objectStore lookup, function application).
-/

namespace Idb

/-- Kinds of native IndexedDB objects, as classified by the instanceof checks
of the source (IDBDatabase, IDBObjectStore, IDBIndex, IDBCursor,
IDBTransaction, IDBRequest); plain covers every other native object. -/
inductive RawKind
  | database
  | objectStore
  | index
  | cursor
  | transaction
  | request
  | plain
deriving DecidableEq, Repr

/-- Property keys: strings, or the well-known Symbol.asyncIterator used by
the cursor-iteration traps (typeof prop tells the two apart). -/
inductive PropKey
  | str (s : String)
  | symbolAsyncIterator
deriving DecidableEq, Repr

/-- Runtime values of the embedded fragment. Raw engine objects carry the
engine's ids; proxy, promise and fnWrapped carry allocation ids drawn from
St.nextId. convFn is a convenience-method closure synthesized by getMethod
(determined by its method name) and iterFn is the module-level iterate
generator function. thrown stands for an exception propagating out of a
native call. -/
inductive Val
  | undef
  | prim (n : Nat)
  | str (s : String)
  | raw (id : Nat)
  | proxy (id : Nat)
  | promise (id : Nat)
  | fnRaw (id : Nat)
  | fnWrapped (id : Nat)
  | convFn (prop : String)
  | iterFn
  | thrown
deriving DecidableEq, Repr

/-- JavaScript truthiness for the values of the model: undefined, 0 and the
empty string are falsy, objects and functions are truthy. -/
def jsTruthy : Val → Bool
  | .undef => false
  | .prim n => n != 0
  | .str s => s != ""
  | .thrown => false
  | _ => true

/-- Lookup in an association list keyed by identity: the model of
WeakMap.get and Map.get, with none for the absent (undefined) result. -/
def assocLookup {α β : Type} [DecidableEq α] : List (α × β) → α → Option β
  | [], _ => none
  | (k, v) :: rest, a => if k = a then some v else assocLookup rest a

/-- The external engine at the boundary: instanceof classification of raw
ids, which raw functions are the three cursor advance methods, raw property
tables, the objectStoreNames list of a transaction, the raw object store a
transaction resolves a name to, and raw function application. -/
structure Env where
  kindOf : Nat → RawKind
  isAdvanceMethod : Nat → Bool
  getProp : Nat → PropKey → Val
  hasProp : Nat → PropKey → Bool
  storeNames : Nat → List String
  objectStoreOf : Nat → String → Nat
  applyFn : Nat → Val → List Val → Val

/-- Mutable module state of the library: the four WeakMaps, the Map of
memoized convenience methods, bookkeeping for allocated wrapper functions
and proxies, and the allocation counter for fresh object identities. -/
structure St where
  transformCache : List (Val × Val)
  reverseTransformCache : List (Val × Val)
  transactionDoneMap : List (Nat × Nat)
  cursorRequestMap : List (Val × Val)
  cachedMethods : List (String × Val)
  wrappedFns : List (Nat × Val)
  proxies : List (Nat × Nat)
  nextId : Nat
deriving DecidableEq, Repr

/-- State at module load: every map empty. -/
def St.init : St := ⟨[], [], [], [], [], [], [], 0⟩

/-- Identity-level effect of promisifyRequest (source lines 30-58): allocate
a fresh promise for the request and record it in reverseTransformCache
only; the source comment notes this is the one reverse entry whose forward
counterpart is never created. The listener behaviour of the allocated
promise is reqStep below. -/
def promisifyRequest (s : St) (reqId : Nat) : Val × St :=
  (Val.promise s.nextId,
   { s with
     nextId := s.nextId + 1,
     reverseTransformCache :=
       (Val.promise s.nextId, Val.raw reqId) :: s.reverseTransformCache })

/-- cacheDonePromiseForTransaction (source lines 59-83): early bail when a
done promise already exists for the transaction, otherwise allocate one and
record it in transactionDoneMap. The listener behaviour of the done
promise is txDoneStep below. -/
def cacheDonePromiseForTransaction (s : St) (txId : Nat) : St :=
  if (assocLookup s.transactionDoneMap txId).isSome then s
  else
    { s with
      nextId := s.nextId + 1,
      transactionDoneMap := (txId, s.nextId) :: s.transactionDoneMap }

/-- Values that answer typeof value with function. -/
def jsIsFunction : Val → Bool
  | .fnRaw _ => true
  | .fnWrapped _ => true
  | .convFn _ => true
  | .iterFn => true
  | _ => false

/-- instanceof classification of a value: only raw engine objects have a
RawKind (wrap is only ever applied to engine-supplied values). -/
def valRawKind (env : Env) : Val → Option RawKind
  | .raw id => some (env.kindOf id)
  | _ => none

/-- The five proxyable kinds of getIdbProxyableTypes (source lines 9-14). -/
def isProxyableKind : RawKind → Bool
  | .database => true
  | .objectStore => true
  | .index => true
  | .cursor => true
  | .transaction => true
  | _ => false

/-- Allocation effect of wrapFunction (source lines 108-133): one fresh
wrapper function object per wrapped function; its invocation behaviour is
callWrappedFn below. -/
def wrapFunction (s : St) (f : Val) : Val × St :=
  (Val.fnWrapped s.nextId,
   { s with nextId := s.nextId + 1, wrappedFns := (s.nextId, f) :: s.wrappedFns })

/-- transformCachableValue (source lines 134-145): functions get a wrapper
function, transactions additionally get their done promise cached eagerly,
proxyable kinds get a fresh proxy, everything else passes through. -/
def transformCachableValue (env : Env) (s : St) (v : Val) : Val × St :=
  if jsIsFunction v then wrapFunction s v
  else
    match v with
    | .raw id =>
        let s1 :=
          if env.kindOf id = RawKind.transaction then
            cacheDonePromiseForTransaction s id
          else s
        if isProxyableKind (env.kindOf id) then
          (Val.proxy s1.nextId,
           { s1 with nextId := s1.nextId + 1, proxies := (s1.nextId, id) :: s1.proxies })
        else (v, s1)
    | _ => (v, s)

/-- Cache-mediated part of wrap (source lines 151-162): reuse the cached
transformed value, otherwise transform and, when the transformation
produced a new object, record the pair in both directions. -/
def wrapCachable (env : Env) (s : St) (v : Val) : Val × St :=
  match assocLookup s.transformCache v with
  | some w => (w, s)
  | none =>
      let r := transformCachableValue env s v
      if r.1 = v then r
      else
        (r.1,
         { r.2 with
           transformCache := (v, r.1) :: r.2.transformCache,
           reverseTransformCache := (r.1, v) :: r.2.reverseTransformCache })

/-- wrap (source lines 146-163): IDBRequest values always go to
promisifyRequest (never through the cache), everything else through the
identity cache. -/
def wrap (env : Env) (s : St) (v : Val) : Val × St :=
  match v with
  | .raw id =>
      if env.kindOf id = RawKind.request then promisifyRequest s id
      else wrapCachable env s (Val.raw id)
  | v => wrapCachable env s v

/-- unwrap (source lines 164-166): reverse lookup in the identity cache,
undefined (none) when the value was never recorded. -/
def unwrap (s : St) (v : Val) : Option Val :=
  assocLookup s.reverseTransformCache v

/-- A sequence of wrap calls, returning the final state and the list of
wrapped values produced. -/
def wrapTrace (env : Env) : St → List Val → St × List Val
  | s, [] => (s, [])
  | s, v :: vs =>
      let r := wrap env s v
      let rest := wrapTrace env r.2 vs
      (rest.1, r.1 :: rest.2)

/-- Well-formedness of the identity cache: every forward entry has a
matching reverse entry. Holds in St.init and in every state the library
reaches, since wrap records new pairs in both directions. -/
def InSync (s : St) : Prop :=
  ∀ a b : Val, assocLookup s.transformCache a = some b →
    assocLookup s.reverseTransformCache b = some a

theorem InSync_init : InSync St.init := by
  intro a b h
  simp [St.init, assocLookup] at h

/-- Value returned by the done-property trap: transactionDoneMap.get of the
target (undefined when absent). -/
def donePropVal (s : St) (txId : Nat) : Val :=
  match assocLookup s.transactionDoneMap txId with
  | some p => Val.promise p
  | none => Val.undef

/-- Indexed access on a DOMStringList: undefined past the end. -/
def domIndex (names : List String) (i : Nat) : Option String := names.get? i

/-- JS truthiness of a possibly-absent string: undefined and the empty
string are falsy. -/
def jsTruthyStrOpt : Option String → Bool
  | none => false
  | some s => s != ""

/-- DOMString coercion applied by native objectStore to its argument:
undefined stringifies to the text undefined. -/
def coerceName : Option String → String
  | none => "undefined"
  | some s => s

/-- Outcome of the store-property trap: the absent value, the wrapped sole
store, or a native exception. -/
inductive StoreOutcome
  | undef
  | wrappedStore (name : String)
  | thrown
deriving DecidableEq, Repr

/-- Native IDBTransaction.objectStore, modeled at the boundary from the
IndexedDB standard: returns the named store when the name is in the
transaction scope and throws NotFoundError otherwise. -/
def rawObjectStore (names : List String) (arg : Option String) : StoreOutcome :=
  if coerceName arg ∈ names then StoreOutcome.wrappedStore (coerceName arg)
  else StoreOutcome.thrown

/-- The store branch of the base get trap (source lines 91-94):
objectStoreNames[1] is truthy gives undefined, otherwise
receiver.objectStore(objectStoreNames[0]). -/
def txStoreGet (names : List String) : StoreOutcome :=
  if jsTruthyStrOpt (domIndex names 1) then StoreOutcome.undef
  else rawObjectStore names (domIndex names 0)

/-- A hook set of the Interception Registry: the get and has traps. get
threads the module state because the convenience layer memoizes methods
and the base trap calls wrap. -/
structure Traps where
  get : St → Nat → PropKey → Val × St
  has : Nat → PropKey → Bool

/-- idbProxyTraps (source lines 84-104): special handling of done and store
on transactions, otherwise wrap whatever the raw property yields; has
reports done and store present on transactions and defers to the raw
object elsewhere. -/
def baseTraps (env : Env) : Traps where
  get s t p :=
    if env.kindOf t = RawKind.transaction ∧ p = PropKey.str "done" then
      (donePropVal s t, s)
    else if env.kindOf t = RawKind.transaction ∧ p = PropKey.str "store" then
      match txStoreGet (env.storeNames t) with
      | .undef => (Val.undef, s)
      | .wrappedStore n => wrap env s (Val.raw (env.objectStoreOf t n))
      | .thrown => (Val.thrown, s)
    else wrap env s (env.getProp t p)
  has t p :=
    if env.kindOf t = RawKind.transaction ∧ (p = PropKey.str "done" ∨ p = PropKey.str "store")
    then true
    else env.hasProp t p

/-- The base read-method names (source lines 208). -/
def readMethodsBase : List String := ["get", "getKey", "getAll", "getAllKeys", "count"]

/-- readMethods after the index variants are pushed (source line 211). -/
def readMethods : List String :=
  readMethodsBase ++ readMethodsBase.map (fun n => n ++ "FromIndex")

/-- The write-method names (source line 209). -/
def writeMethods : List String := ["put", "add", "delete", "clear"]

/-- potentialDatabaseExtra (source lines 203-207): the target is a database,
the property is not already on the raw target, and the key is a string. -/
def potentialDatabaseExtra (env : Env) (t : Nat) (p : PropKey) : Bool :=
  decide (env.kindOf t = RawKind.database) && !(env.hasProp t p) &&
    (match p with | .str _ => true | _ => false)

/-- getMethod (source lines 213-237): the closure synthesized for a
convenience method name, or none when the name is neither a read nor a
write method. The closures are represented by convFn values; their bodies
are readMethodCode and writeConvMethod below. -/
def getMethod (p : String) : Option Val :=
  if p ∈ readMethods then some (Val.convFn p)
  else if p ∈ writeMethods then some (Val.convFn p)
  else none

/-- The addTraps call installing the convenience-method layer
(source lines 238-260). -/
def dbTrapsLayer (env : Env) (old : Traps) : Traps where
  get s t p :=
    if potentialDatabaseExtra env t p = false then old.get s t p
    else
      match p with
      | .str prop =>
          (match assocLookup s.cachedMethods prop with
           | some m => (m, s)
           | none =>
               match getMethod prop with
               | some m => (m, { s with cachedMethods := (prop, m) :: s.cachedMethods })
               | none => old.get s t p)
      | _ => old.get s t p
  has t p :=
    (potentialDatabaseExtra env t p &&
       (match p with
        | .str prop => decide (prop ∈ readMethods) || decide (prop ∈ writeMethods)
        | _ => false))
    || old.has t p

/-- isIteratorProp (source lines 297-301). -/
def isIteratorProp (env : Env) (t : Nat) (p : PropKey) : Bool :=
  (decide (p = PropKey.symbolAsyncIterator) &&
     (decide (env.kindOf t = RawKind.index) || decide (env.kindOf t = RawKind.objectStore) ||
      decide (env.kindOf t = RawKind.cursor)))
  || (decide (p = PropKey.str "iterate") &&
     (decide (env.kindOf t = RawKind.index) || decide (env.kindOf t = RawKind.objectStore)))

/-- The addTraps call installing the cursor-iteration layer
(source lines 302-311); the single module-level iterate generator function
is returned for iterator properties. -/
def iterTrapsLayer (env : Env) (old : Traps) : Traps where
  get s t p := if isIteratorProp env t p then (Val.iterFn, s) else old.get s t p
  has t p := isIteratorProp env t p || old.has t p

/-- The trap chain after both addTraps calls ran at module load: the
iteration layer over the convenience layer over the base traps. -/
def finalTraps (env : Env) : Traps :=
  iterTrapsLayer env (dbTrapsLayer env (baseTraps env))

/-- Settlement state of a promise: none while pending, Sum.inl a resolution
value, Sum.inr a rejection reason; listenersOn records whether the two
event listeners registered at creation are still attached. -/
structure PromiseState where
  settled : Option (Val ⊕ Val)
  listenersOn : Bool
deriving DecidableEq, Repr

/-- A freshly created promise: pending, listeners attached. -/
def PromiseState.init : PromiseState := ⟨none, true⟩

/-- An event fired on an IDBRequest, carrying the request state it exposes
at that moment. -/
inductive ReqEvent
  | success (result : Val)
  | failure (error : Val)

/-- Event dispatch for the promise created by promisifyRequest (source
lines 31-53): the success listener resolves with wrap(request.result) and
unlistens, the error listener rejects with request.error unchanged and
unlistens; once the listeners are removed further events have no effect.
The then-callback records (wrapped cursor, request) in cursorRequestMap
when the resolution value is a cursor. -/
def reqStep (env : Env) (reqId : Nat) (p : PromiseState) (s : St) :
    ReqEvent → PromiseState × St
  | .success res =>
      if p.listenersOn then
        let r := wrap env s res
        let s2 :=
          if valRawKind env res = some RawKind.cursor then
            { r.2 with cursorRequestMap := (r.1, Val.raw reqId) :: r.2.cursorRequestMap }
          else r.2
        (⟨some (Sum.inl r.1), false⟩, s2)
      else (p, s)
  | .failure err =>
      if p.listenersOn then (⟨some (Sum.inr err), false⟩, s)
      else (p, s)

/-- An event fired on an IDBTransaction. -/
inductive TxEvent
  | complete
  | failure
  | abort
deriving DecidableEq, Repr

/-- Event dispatch for the done promise built by
cacheDonePromiseForTransaction (source lines 63-80): complete resolves
with no value, error and abort both reject with tx.error, and the
listeners are removed after whichever fires first. -/
def txDoneStep (txError : Val) (p : PromiseState) : TxEvent → PromiseState
  | .complete => if p.listenersOn then ⟨some (Sum.inl Val.undef), false⟩ else p
  | .failure => if p.listenersOn then ⟨some (Sum.inr txError), false⟩ else p
  | .abort => if p.listenersOn then ⟨some (Sum.inr txError), false⟩ else p

/-- The done promise driven by a whole sequence of transaction events. -/
def txDoneRun (txError : Val) (p : PromiseState) (evs : List TxEvent) : PromiseState :=
  evs.foldl (txDoneStep txError) p

/-- Observable outcome of invoking a function produced by wrapFunction:
which raw function was applied to which unwrapped receiver with which
arguments, the value returned to the caller, and the module state after
the call. -/
structure CallResult where
  applied : Option (Nat × Val × List Val)
  returned : Val
  st : St

/-- Invocation behaviour of a function produced by wrapFunction (source
lines 108-133). Cursor advance methods apply the raw method to the
unwrapped cursor and return wrap of the request retrieved from
cursorRequestMap; every other function applies the raw function to the
unwrapped receiver and wraps its value. An absent unwrap leaves the
native apply with an undefined receiver, which throws at the native
layer. -/
def callWrappedFn (env : Env) (s : St) (fid : Nat) (thisV : Val) (args : List Val) :
    CallResult :=
  match unwrap s thisV with
  | none => ⟨none, Val.thrown, s⟩
  | some orig =>
      if env.isAdvanceMethod fid then
        let req := assocLookup s.cursorRequestMap thisV
        let r := wrap env s (match req with | some rv => rv | none => Val.undef)
        ⟨some (fid, orig, args), r.1, r.2⟩
      else
        let r := wrap env s (env.applyFn fid orig args)
        ⟨some (fid, orig, args), r.1, r.2⟩

/-- Target of a convenience read: the transaction's sole store, or a named
index opened on it. -/
inductive ReadTarget
  | store
  | index (name : Val)
deriving DecidableEq, Repr

/-- Transaction modes used by the convenience layer. -/
inductive TxMode
  | readonly
  | readwrite
deriving DecidableEq, Repr

/-- The one native read call a convenience read method issues: the store
the transaction is opened on, the mode, the selected target, and the base
method with its arguments. -/
structure ReadCall where
  storeName : String
  mode : TxMode
  target : ReadTarget
  method : String
  args : List Val
deriving DecidableEq, Repr

/-- JS String.prototype.endsWith over the character sequence. -/
def jsEndsWith (s suffix : String) : Bool := suffix.data.isSuffixOf s.data

/-- JS String.prototype.slice(0, -n): drop the last n characters. -/
def jsDropRight (s : String) (n : Nat) : String :=
  String.mk (s.data.take (s.data.length - n))

/-- The read branch of getMethod (source lines 214-229), transcribed: when
the name ends in FromIndex, shift the first argument off as the index name
and strip the nine-character suffix; open this.transaction(storeName)
(read-only default), take tx.store, route through target.index(indexName)
only when indexName is truthy, and call the resolved method with the
remaining arguments. -/
def readMethodCode (prop : String) (storeName : String) (args : List Val) : ReadCall :=
  let fromIndex := jsEndsWith prop "FromIndex"
  let indexName : Val :=
    if fromIndex then (match args with | a :: _ => a | [] => Val.undef) else Val.str ""
  let targetFuncName := if fromIndex then jsDropRight prop 9 else prop
  let restArgs := if fromIndex then args.tail else args
  { storeName := storeName
    mode := TxMode.readonly
    target := if jsTruthy indexName then ReadTarget.index indexName else ReadTarget.store
    method := targetFuncName
    args := restArgs }

/-- Modelled from the spec: the index-scoped read baseline the claim
compares against — open a read-only transaction on the named store, open
the named index on its store, and call the base read method with the rest
of the arguments. -/
def readFromIndexSpec (base : String) (storeName : String) (indexName : Val)
    (rest : List Val) : ReadCall :=
  { storeName := storeName
    mode := TxMode.readonly
    target := ReadTarget.index indexName
    method := base
    args := rest }

/-- A native call issued by a convenience write method, in issue order. -/
inductive EngineCall
  | openTransaction (storeName : String) (mode : TxMode)
  | storeMethod (storeName : String) (method : String) (args : List Val)
deriving DecidableEq, Repr

/-- Observable outcome of a convenience write method invocation. -/
structure WriteRun where
  calls : List EngineCall
  writeFuture : Val
  returned : Val
  st : St

/-- The write branch of getMethod (source lines 230-236): tx =
this.transaction(storeName, readwrite); tx.store[prop](...args);
return tx.done. The engine allocates the raw transaction txRaw for the
transaction call and the raw request reqRaw for the native write; the
receiver retargeting of those proxy-mediated calls is modeled by wrap and
the trap chain. -/
def writeConvMethod (env : Env) (s : St) (prop : String) (storeName : String)
    (args : List Val) (txRaw reqRaw : Nat) : WriteRun :=
  let t1 := wrap env s (Val.raw txRaw)
  let t2 := (finalTraps env).get t1.2 txRaw (PropKey.str "store")
  let t3 := wrap env t2.2 (Val.raw reqRaw)
  let t4 := (finalTraps env).get t3.2 txRaw (PropKey.str "done")
  { calls := [EngineCall.openTransaction storeName TxMode.readwrite,
              EngineCall.storeMethod storeName prop args]
    writeFuture := t3.1
    returned := t4.1
    st := t4.2 }

/-- One suspension of the iterate generator as seen from the loop: whether
the consumer invoked an advance method during its turn (recording the
future of the next position in advanceResults) and the position the
default cursor.continue() would deliver otherwise. -/
structure IterStep where
  advanceCalled : Option (Option Nat)
  continueNext : Option Nat
deriving Repr

/-- The next cursor position after one turn (source line 293): the recorded
advance future if present, else the default continue. -/
def IterStep.next (t : IterStep) : Option Nat :=
  match t.advanceCalled with
  | some n => n
  | none => t.continueNext

/-- Loop body of iterate (source lines 290-295): while a cursor position is
live, yield the facade, then step to the next position; an exhausted turn
list models a consumer abandoning the sequence after a yield. -/
def iterateLoop (facade : Val) : Option Nat → List IterStep → List Val
  | none, _ => []
  | some _, [] => [facade]
  | some _, t :: rest => facade :: iterateLoop facade (IterStep.next t) rest

/-- iterate (source lines 279-296): an absent first cursor terminates the
sequence before any facade is created; otherwise exactly one facade proxy
is allocated before the loop and reused for every yield. -/
def iterateGen (s : St) (first : Option Nat) (steps : List IterStep) : List Val × St :=
  match first with
  | none => ([], s)
  | some c =>
      (iterateLoop (Val.proxy s.nextId) first steps,
       { s with nextId := s.nextId + 1, proxies := (s.nextId, c) :: s.proxies })

/-- transformCachableValue never touches the reverse cache. -/
theorem tcv_reverse (env : Env) (s : St) (v : Val) :
    (transformCachableValue env s v).2.reverseTransformCache = s.reverseTransformCache := by
  unfold transformCachableValue wrapFunction cacheDonePromiseForTransaction
  cases v <;> simp <;> (repeat' split) <;> simp

/-- transformCachableValue never touches the forward cache. -/
theorem tcv_forward (env : Env) (s : St) (v : Val) :
    (transformCachableValue env s v).2.transformCache = s.transformCache := by
  unfold transformCachableValue wrapFunction cacheDonePromiseForTransaction
  cases v <;> simp <;> (repeat' split) <;> simp

/-- cacheDonePromiseForTransaction preserves existing done-map entries. -/
theorem cacheDone_doneMap_lookup (s : St) (txId t d : Nat)
    (h : assocLookup s.transactionDoneMap t = some d) :
    assocLookup (cacheDonePromiseForTransaction s txId).transactionDoneMap t = some d := by
  unfold cacheDonePromiseForTransaction
  split
  · exact h
  · rename_i hnone
    simp only [assocLookup]
    split
    · rename_i he
      subst he
      simp [h] at hnone
    · exact h

/-- transformCachableValue preserves existing done-map entries. -/
theorem tcv_doneMap_lookup (env : Env) (s : St) (v : Val) (t d : Nat)
    (h : assocLookup s.transactionDoneMap t = some d) :
    assocLookup (transformCachableValue env s v).2.transactionDoneMap t = some d := by
  unfold transformCachableValue wrapFunction
  cases v <;> simp [h] <;> (repeat' split) <;>
    simp [h, cacheDone_doneMap_lookup _ _ _ _ h]

/-- wrap preserves existing done-map entries. -/
theorem wrap_doneMap_lookup (env : Env) (s : St) (v : Val) (t d : Nat)
    (h : assocLookup s.transactionDoneMap t = some d) :
    assocLookup (wrap env s v).2.transactionDoneMap t = some d := by
  unfold wrap wrapCachable promisifyRequest
  cases v <;> simp [h] <;> (repeat' split)
  all_goals simp [h, tcv_doneMap_lookup _ _ _ _ _ h]

/-- transformCachableValue never lowers the allocation counter. -/
theorem tcv_nextId_le (env : Env) (s : St) (v : Val) :
    s.nextId ≤ (transformCachableValue env s v).2.nextId := by
  unfold transformCachableValue wrapFunction cacheDonePromiseForTransaction
  cases v <;> simp <;> (repeat' split) <;> simp
  all_goals omega

/-- wrap never lowers the allocation counter. -/
theorem wrap_nextId_le (env : Env) (s : St) (v : Val) :
    s.nextId ≤ (wrap env s v).2.nextId := by
  unfold wrap wrapCachable promisifyRequest
  cases v <;> simp <;> (repeat' split)
  all_goals simp [tcv_nextId_le]

/-- Every reverse-cache entry wrapCachable adds is keyed by its own output:
a reverse lookup either is unchanged or hits the value just produced. -/
theorem wrapCachable_reverse_lookup (env : Env) (s : St) (v u : Val) :
    assocLookup (wrapCachable env s v).2.reverseTransformCache u
        = assocLookup s.reverseTransformCache u
    ∨ u = (wrapCachable env s v).1 := by
  unfold wrapCachable
  split
  · left; rfl
  · by_cases hv : (transformCachableValue env s v).1 = v
    · left; simp [hv, tcv_reverse]
    · by_cases hu : (transformCachableValue env s v).1 = u
      · right; simp [hv]; exact hu.symm
      · left; simp [hv, assocLookup, tcv_reverse, hu]

/-- Every reverse-cache entry wrap adds is keyed by its own output. -/
theorem wrap_reverse_lookup (env : Env) (s : St) (v u : Val) :
    assocLookup (wrap env s v).2.reverseTransformCache u
        = assocLookup s.reverseTransformCache u
    ∨ u = (wrap env s v).1 := by
  cases v with
  | raw id =>
      by_cases hreq : env.kindOf id = RawKind.request
      · by_cases hu : Val.promise s.nextId = u
        · right; simp [wrap, hreq, promisifyRequest, hu]
        · left; simp [wrap, hreq, promisifyRequest, assocLookup, hu]
      · simpa [wrap, hreq] using wrapCachable_reverse_lookup env s (Val.raw id) u
  | undef => exact wrapCachable_reverse_lookup env s Val.undef u
  | prim n => exact wrapCachable_reverse_lookup env s (Val.prim n) u
  | str t => exact wrapCachable_reverse_lookup env s (Val.str t) u
  | proxy id => exact wrapCachable_reverse_lookup env s (Val.proxy id) u
  | promise id => exact wrapCachable_reverse_lookup env s (Val.promise id) u
  | fnRaw id => exact wrapCachable_reverse_lookup env s (Val.fnRaw id) u
  | fnWrapped id => exact wrapCachable_reverse_lookup env s (Val.fnWrapped id) u
  | convFn p => exact wrapCachable_reverse_lookup env s (Val.convFn p) u
  | iterFn => exact wrapCachable_reverse_lookup env s Val.iterFn u
  | thrown => exact wrapCachable_reverse_lookup env s Val.thrown u

/-- A reverse lookup of anything other than the value wrap just produced is
unchanged by the call. -/
theorem unwrap_wrap_preserved_ne (env : Env) (s : St) (v u : Val)
    (hne : u ≠ (wrap env s v).1) :
    unwrap (wrap env s v).2 u = unwrap s u := by
  rcases wrap_reverse_lookup env s v u with h | h
  · exact h
  · exact absurd h hne

/-- Along any sequence of wrap calls, a value that is never one of the
produced outputs stays absent from the reverse cache. -/
theorem wrapTrace_unwrap_none (env : Env) (vs : List Val) :
    ∀ (s : St) (u : Val), unwrap s u = none → u ∉ (wrapTrace env s vs).2 →
      unwrap (wrapTrace env s vs).1 u = none := by
  induction vs with
  | nil => intro s u h _; exact h
  | cons v vs ih =>
      intro s u h hmem
      simp only [wrapTrace, List.mem_cons] at hmem ⊢
      push_neg at hmem
      exact ih _ _ (by rw [unwrap_wrap_preserved_ne env s v u hmem.1]; exact h) hmem.2

/-- A sequence of wrap calls preserves existing done-map entries. -/
theorem wrapTrace_doneMap_lookup (env : Env) (vs : List Val) :
    ∀ (s : St) (t d : Nat), assocLookup s.transactionDoneMap t = some d →
      assocLookup (wrapTrace env s vs).1.transactionDoneMap t = some d := by
  induction vs with
  | nil => intro s t d h; exact h
  | cons v vs ih =>
      intro s t d h
      simp only [wrapTrace]
      exact ih _ _ _ (wrap_doneMap_lookup env s v t d h)

/-- On targets that are neither databases nor index, object-store or cursor
handles, the two registered trap layers always decline and the chain falls
through to the base traps. -/
theorem finalTraps_get_eq_base (env : Env) (s : St) (t : Nat) (p : PropKey)
    (h1 : env.kindOf t ≠ RawKind.database)
    (h2 : env.kindOf t ≠ RawKind.index)
    (h3 : env.kindOf t ≠ RawKind.objectStore)
    (h4 : env.kindOf t ≠ RawKind.cursor) :
    (finalTraps env).get s t p = (baseTraps env).get s t p := by
  simp [finalTraps, iterTrapsLayer, dbTrapsLayer, isIteratorProp,
    potentialDatabaseExtra, h1, h2, h3, h4]

/-- The done promise resolves only through the complete event: a resolved
settlement implies complete occurred (error and abort only reject). -/
theorem txDoneRun_inl_complete (txError : Val) (evs : List TxEvent) :
    ∀ (p : PromiseState) (w : Val), (∀ x, p.settled ≠ some (Sum.inl x)) →
      (txDoneRun txError p evs).settled = some (Sum.inl w) →
      TxEvent.complete ∈ evs := by
  induction evs with
  | nil => intro p w hp hr; exact absurd hr (hp w)
  | cons e evs ih =>
      intro p w hp hr
      by_cases hc : e = TxEvent.complete
      · simp [hc]
      · simp only [List.mem_cons]
        right
        refine ih (txDoneStep txError p e) w ?_ hr
        intro x
        cases e with
        | complete => exact absurd rfl hc
        | failure =>
            by_cases hl : p.listenersOn = true
            · simp [txDoneStep, hl]
            · simpa [txDoneStep, hl] using hp x
        | abort =>
            by_cases hl : p.listenersOn = true
            · simp [txDoneStep, hl]
            · simpa [txDoneStep, hl] using hp x


/-- Every element iterateLoop yields is the facade it was given. -/
theorem iterateLoop_mem (facade : Val) (steps : List IterStep) :
    ∀ (pos : Option Nat) (x : Val), x ∈ iterateLoop facade pos steps → x = facade := by
  induction steps with
  | nil =>
      intro pos x hx
      cases pos <;> simp [iterateLoop] at hx
      exact hx
  | cons t rest ih =>
      intro pos x hx
      cases pos with
      | none => simp [iterateLoop] at hx
      | some c =>
          simp only [iterateLoop, List.mem_cons] at hx
          rcases hx with h | h
          · exact h
          · exact ih _ _ h

/-- No string precedes the empty string in the lexicographic order, so the
second entry of a sorted DOMStringList is never the empty string. -/
theorem string_not_lt_empty (x : String) : ¬ x < "" := by
  simp [String.lt_iff_toList_lt]

/-- Concrete engine used by the witnesses: raw id 0 is a database, 1 a
request, 2 a transaction with sole store books, 3 an object store, 4 a
cursor, 5 an index; raw function 30 is a cursor advance method. -/
def envW : Env :=
  { kindOf := fun i =>
      if i = 0 then RawKind.database
      else if i = 1 then RawKind.request
      else if i = 2 then RawKind.transaction
      else if i = 3 then RawKind.objectStore
      else if i = 4 then RawKind.cursor
      else if i = 5 then RawKind.index
      else RawKind.plain
    isAdvanceMethod := fun i => i = 30
    getProp := fun _ _ => Val.undef
    hasProp := fun _ p => decide (p = PropKey.str "name")
    storeNames := fun i => if i = 2 then ["books"] else []
    objectStoreOf := fun _ _ => 3
    applyFn := fun _ _ _ => Val.undef }

/-- C1: for every raw handle of a wrappable kind (database, object store,
index, cursor or transaction), a repeated wrap call returns the identical
wrapped object with an unchanged state, unwrap of the wrapped handle is
the raw handle, and unwrap is absent for every value that no wrap call of
a run from the initial state ever produced. -/
theorem wrap_identity_stable (env : Env) (s : St) (id : Nat)
    (hsync : InSync s) (hk : isProxyableKind (env.kindOf id) = true) :
    wrap env (wrap env s (Val.raw id)).2 (Val.raw id) = wrap env s (Val.raw id)
    ∧ unwrap (wrap env s (Val.raw id)).2 (wrap env s (Val.raw id)).1 = some (Val.raw id)
    ∧ ∀ (vs : List Val) (u : Val),
        u ∉ (wrapTrace env St.init vs).2 →
        unwrap (wrapTrace env St.init vs).1 u = none := by
  have hnreq : env.kindOf id ≠ RawKind.request := by
    intro h
    rw [h] at hk
    simp [isProxyableKind] at hk
  have hwrap : ∀ s₁ : St, wrap env s₁ (Val.raw id) = wrapCachable env s₁ (Val.raw id) := by
    intro s₁
    simp [wrap, hnreq]
  refine ⟨?_, ?_, ?_⟩
  case refine_3 =>
    intro vs u hu
    exact wrapTrace_unwrap_none env vs St.init u rfl hu
  all_goals
    rcases hc : assocLookup s.transformCache (Val.raw id) with _ | w
  case refine_1.none =>
    have hne : ¬ (transformCachableValue env s (Val.raw id)).1 = Val.raw id := by
      simp [transformCachableValue, jsIsFunction, hk]
    have hres : wrapCachable env s (Val.raw id)
        = ((transformCachableValue env s (Val.raw id)).1,
           { (transformCachableValue env s (Val.raw id)).2 with
             transformCache := (Val.raw id, (transformCachableValue env s (Val.raw id)).1)
               :: (transformCachableValue env s (Val.raw id)).2.transformCache,
             reverseTransformCache :=
               ((transformCachableValue env s (Val.raw id)).1, Val.raw id)
               :: (transformCachableValue env s (Val.raw id)).2.reverseTransformCache }) := by
      simp [wrapCachable, hc, hne]
    rw [hwrap, hwrap, hres]
    simp [wrapCachable, assocLookup]
  case refine_1.some =>
    have hres : wrapCachable env s (Val.raw id) = (w, s) := by
      simp [wrapCachable, hc]
    rw [hwrap, hwrap, hres]
    exact hres
  case refine_2.none =>
    have hne : ¬ (transformCachableValue env s (Val.raw id)).1 = Val.raw id := by
      simp [transformCachableValue, jsIsFunction, hk]
    have hres : wrapCachable env s (Val.raw id)
        = ((transformCachableValue env s (Val.raw id)).1,
           { (transformCachableValue env s (Val.raw id)).2 with
             transformCache := (Val.raw id, (transformCachableValue env s (Val.raw id)).1)
               :: (transformCachableValue env s (Val.raw id)).2.transformCache,
             reverseTransformCache :=
               ((transformCachableValue env s (Val.raw id)).1, Val.raw id)
               :: (transformCachableValue env s (Val.raw id)).2.reverseTransformCache }) := by
      simp [wrapCachable, hc, hne]
    rw [hwrap, hres]
    simp [unwrap, assocLookup]
  case refine_2.some =>
    have hres : wrapCachable env s (Val.raw id) = (w, s) := by
      simp [wrapCachable, hc]
    rw [hwrap, hres]
    exact hsync _ _ hc

/-- Witness: the hypotheses of wrap_identity_stable are satisfied by the
initial state and a database handle of the concrete engine. -/
theorem wrap_identity_stable_witness :
    InSync St.init ∧ isProxyableKind (envW.kindOf 0) = true ∧
    (wrap envW (wrap envW St.init (Val.raw 0)).2 (Val.raw 0) = wrap envW St.init (Val.raw 0)
     ∧ unwrap (wrap envW St.init (Val.raw 0)).2 (wrap envW St.init (Val.raw 0)).1
         = some (Val.raw 0)
     ∧ ∀ (vs : List Val) (u : Val),
        u ∉ (wrapTrace envW St.init vs).2 →
        unwrap (wrapTrace envW St.init vs).1 u = none) :=
  ⟨InSync_init, by decide, wrap_identity_stable envW St.init 0 InSync_init (by decide)⟩

/-- Concrete engine for the zero-store transaction: every raw id is a
transaction whose scope list is empty (as for a versionchange transaction
on a database holding no stores yet). -/
def envTx0 : Env :=
  { envW with kindOf := fun _ => RawKind.transaction, storeNames := fun _ => [] }

/-- C2 counterexample: on a transaction spanning zero stores, reading the
store property does not produce the absent value — the trap falls into the
else branch and calls the native objectStore with an undefined name, which
throws. -/
theorem txStore_zero_stores_cex :
    ((finalTraps envTx0).get St.init 7 (PropKey.str "store")).1 = Val.thrown
    ∧ ((finalTraps envTx0).get St.init 7 (PropKey.str "store")).1 ≠ Val.undef := by
  decide

/-- C2 amended: reading store on a wrapped transaction returns the wrapped
sole store when the scope holds exactly one store, and the absent value
when it holds two or more stores (the scope list being sorted, as
DOMStringList guarantees); when the scope is empty, however, the trap
issues a native objectStore call with an undefined name, which throws
instead of returning an absent value. -/
theorem txStore_cases (env : Env) (s : St) (t : Nat)
    (htx : env.kindOf t = RawKind.transaction)
    (hsorted : (env.storeNames t).Chain' (fun a b => a < b)) :
    ((env.storeNames t).length = 1 →
        (finalTraps env).get s t (PropKey.str "store")
          = wrap env s (Val.raw (env.objectStoreOf t ((env.storeNames t).headI))))
    ∧ (2 ≤ (env.storeNames t).length →
        (finalTraps env).get s t (PropKey.str "store") = (Val.undef, s))
    ∧ (env.storeNames t = [] →
        (finalTraps env).get s t (PropKey.str "store") = (Val.thrown, s)) := by
  have hbase := finalTraps_get_eq_base env s t (PropKey.str "store")
    (by simp [htx]) (by simp [htx]) (by simp [htx]) (by simp [htx])
  rcases hnames : env.storeNames t with _ | ⟨a, _ | ⟨b, rest⟩⟩
  · refine ⟨?_, ?_, ?_⟩ <;> intro h
    · simp [hnames] at h
    · simp [hnames] at h
    · rw [hbase]
      simp [baseTraps, htx, hnames, txStoreGet, domIndex, jsTruthyStrOpt,
        rawObjectStore, coerceName]
  · refine ⟨?_, ?_, ?_⟩ <;> intro h
    · rw [hbase]
      simp [baseTraps, htx, hnames, txStoreGet, domIndex, jsTruthyStrOpt,
        rawObjectStore, coerceName]
    · simp [hnames] at h
    · simp [hnames] at h
  · have hb : b ≠ "" := by
      rw [hnames] at hsorted
      have hab : a < b := (List.chain'_cons.mp hsorted).1
      intro hbe
      rw [hbe] at hab
      exact string_not_lt_empty a hab
    refine ⟨?_, ?_, ?_⟩ <;> intro h
    · simp [hnames] at h
    · rw [hbase]
      simp [baseTraps, htx, hnames, txStoreGet, domIndex, jsTruthyStrOpt, hb]
    · simp [hnames] at h

/-- Witness: the amended store-property cases applied to the concrete
transaction with sole store books. -/
theorem txStore_cases_witness :
    envW.kindOf 2 = RawKind.transaction
    ∧ (envW.storeNames 2).Chain' (fun a b => a < b)
    ∧ (((envW.storeNames 2).length = 1 →
        (finalTraps envW).get St.init 2 (PropKey.str "store")
          = wrap envW St.init (Val.raw (envW.objectStoreOf 2 ((envW.storeNames 2).headI))))
       ∧ (2 ≤ (envW.storeNames 2).length →
        (finalTraps envW).get St.init 2 (PropKey.str "store") = (Val.undef, St.init))
       ∧ (envW.storeNames 2 = [] →
        (finalTraps envW).get St.init 2 (PropKey.str "store") = (Val.thrown, St.init))) :=
  ⟨by decide, by simp [envW], txStore_cases envW St.init 2 (by decide) (by simp [envW])⟩

/-- C3 counterexample: wrapping a pending operation does store the
(future, pending operation) pair in the reverse direction of the Identity
Cache — unwrap recovers the request from the future — contrary to the
claim that the pair is cached in neither direction. -/
theorem request_reverse_cached_cex :
    unwrap (wrap envW St.init (Val.raw 1)).2 (wrap envW St.init (Val.raw 1)).1
      = some (Val.raw 1) := by
  decide

/-- C3 amended: wrap on a pending operation delegates to promisifyRequest
and returns its freshly allocated future; no forward entry is recorded, so
a repeated wrap of the same pending operation yields a distinct future;
only the reverse entry (future to request) is stored. -/
theorem request_wrap_uncached_forward (env : Env) (s : St) (reqId : Nat)
    (hk : env.kindOf reqId = RawKind.request) :
    (wrap env s (Val.raw reqId)).1 = Val.promise s.nextId
    ∧ (wrap env s (Val.raw reqId)).2.transformCache = s.transformCache
    ∧ unwrap (wrap env s (Val.raw reqId)).2 (Val.promise s.nextId) = some (Val.raw reqId)
    ∧ (wrap env (wrap env s (Val.raw reqId)).2 (Val.raw reqId)).1
        ≠ (wrap env s (Val.raw reqId)).1 := by
  refine ⟨?_, ?_, ?_, ?_⟩ <;>
    simp [wrap, hk, promisifyRequest, unwrap, assocLookup]

/-- Witness: the amended pending-operation caching behaviour at the
concrete request handle. -/
theorem request_wrap_uncached_forward_witness :
    envW.kindOf 1 = RawKind.request
    ∧ ((wrap envW St.init (Val.raw 1)).1 = Val.promise St.init.nextId
       ∧ (wrap envW St.init (Val.raw 1)).2.transformCache = St.init.transformCache
       ∧ unwrap (wrap envW St.init (Val.raw 1)).2 (Val.promise St.init.nextId)
           = some (Val.raw 1)
       ∧ (wrap envW (wrap envW St.init (Val.raw 1)).2 (Val.raw 1)).1
           ≠ (wrap envW St.init (Val.raw 1)).1) :=
  ⟨by decide, request_wrap_uncached_forward envW St.init 1 (by decide)⟩

/-- For a method name carrying the FromIndex suffix and a truthy index
name, the transcribed read body reduces to the index-scoped baseline. -/
theorem readMethodCode_fromIndex (p storeName : String) (indexName : Val)
    (rest : List Val)
    (he : jsEndsWith (p ++ "FromIndex") "FromIndex" = true)
    (ht : jsTruthy indexName = true)
    (hd : jsDropRight (p ++ "FromIndex") 9 = p) :
    readMethodCode (p ++ "FromIndex") storeName (indexName :: rest)
      = readFromIndexSpec p storeName indexName rest := by
  simp [readMethodCode, readFromIndexSpec, he, ht, hd]

/-- C5 counterexample: called with an empty (falsy) index name, the
synthesized getFromIndex call targets the transaction's sole store instead
of opening the named index, so the issued native call differs from the
baseline of manually opening that index. -/
theorem readFromIndex_falsy_name_cex :
    readMethodCode "getFromIndex" "s" [Val.str "", Val.prim 1]
      ≠ readFromIndexSpec "get" "s" (Val.str "") [Val.prim 1] := by
  decide

/-- C5 amended: for every base read method and every truthy index name,
the index-suffixed convenience call issues exactly the specified baseline:
a read-only transaction on the named store, the named index opened on its
sole store, and the base method applied to the remaining arguments; an
empty index name instead falls back to the store itself. -/
theorem readFromIndex_matches_spec (p storeName : String) (indexName : Val)
    (rest : List Val) (hp : p ∈ readMethodsBase) (ht : jsTruthy indexName = true) :
    readMethodCode (p ++ "FromIndex") storeName (indexName :: rest)
      = readFromIndexSpec p storeName indexName rest := by
  fin_cases hp <;>
    exact readMethodCode_fromIndex _ _ _ _ (by decide) ht (by decide)

/-- Witness: the amended index-scoped read equivalence at a concrete call. -/
theorem readFromIndex_matches_spec_witness :
    "get" ∈ readMethodsBase ∧ jsTruthy (Val.str "byTitle") = true ∧
    readMethodCode ("get" ++ "FromIndex") "books" (Val.str "byTitle" :: [Val.prim 3])
      = readFromIndexSpec "get" "books" (Val.str "byTitle") [Val.prim 3] :=
  ⟨by decide, by decide,
   readFromIndex_matches_spec "get" "books" (Val.str "byTitle") [Val.prim 3]
     (by decide) (by decide)⟩

/-- C6: the future adapter resolves its future with the wrapped request
result on the success event, rejects it with the native error object
unchanged on the failure event, unregisters both listeners as part of
either dispatch, and once the listeners are removed further events change
nothing. -/
theorem promisify_listener_behaviour (env : Env) (s : St) (reqId : Nat) (res err : Val) :
    (reqStep env reqId PromiseState.init s (ReqEvent.success res)).1
        = ⟨some (Sum.inl (wrap env s res).1), false⟩
    ∧ (reqStep env reqId PromiseState.init s (ReqEvent.failure err)).1
        = ⟨some (Sum.inr err), false⟩
    ∧ (∀ (p : PromiseState) (e : ReqEvent), p.listenersOn = false →
        reqStep env reqId p s e = (p, s)) := by
  refine ⟨rfl, rfl, ?_⟩
  intro p e hp
  cases e <;> simp [reqStep, hp]

/-- C7: the done promise is created at most once per transaction (the
second caching call is the identity), every read of the done property of
the wrapped transaction returns that same promise object no matter how
many wrap calls happen in between, and the promise resolves with no value
on complete and rejects with the transaction error on failure or abort. -/
theorem txDone_memoized (env : Env) (s : St) (t : Nat) (txError : Val)
    (htx : env.kindOf t = RawKind.transaction) :
    cacheDonePromiseForTransaction (cacheDonePromiseForTransaction s t) t
      = cacheDonePromiseForTransaction s t
    ∧ (∀ vs vs' : List Val,
        ((finalTraps env).get (wrapTrace env (cacheDonePromiseForTransaction s t) vs).1 t
            (PropKey.str "done")).1
          = ((finalTraps env).get (wrapTrace env (cacheDonePromiseForTransaction s t) vs').1 t
            (PropKey.str "done")).1)
    ∧ txDoneStep txError PromiseState.init TxEvent.complete
        = ⟨some (Sum.inl Val.undef), false⟩
    ∧ txDoneStep txError PromiseState.init TxEvent.failure
        = ⟨some (Sum.inr txError), false⟩
    ∧ txDoneStep txError PromiseState.init TxEvent.abort
        = ⟨some (Sum.inr txError), false⟩ := by
  have hbail : ∀ s₁ : St, (assocLookup s₁.transactionDoneMap t).isSome = true →
      cacheDonePromiseForTransaction s₁ t = s₁ := by
    intro s₁ h
    simp [cacheDonePromiseForTransaction, h]
  have hsome : (assocLookup
      (cacheDonePromiseForTransaction s t).transactionDoneMap t).isSome = true := by
    by_cases h : (assocLookup s.transactionDoneMap t).isSome = true
    · simp [cacheDonePromiseForTransaction, h]
    · simp [cacheDonePromiseForTransaction, h, assocLookup]
  obtain ⟨d, hd⟩ := Option.isSome_iff_exists.mp hsome
  refine ⟨hbail _ hsome, ?_, rfl, rfl, rfl⟩
  intro vs vs'
  have h1 := wrapTrace_doneMap_lookup env vs _ t d hd
  have h2 := wrapTrace_doneMap_lookup env vs' _ t d hd
  rw [finalTraps_get_eq_base env _ t _ (by simp [htx]) (by simp [htx])
        (by simp [htx]) (by simp [htx]),
      finalTraps_get_eq_base env _ t _ (by simp [htx]) (by simp [htx])
        (by simp [htx]) (by simp [htx])]
  simp [baseTraps, htx, donePropVal, h1, h2]

/-- Witness: the done-promise memoization and listener behaviour at the
concrete transaction handle. -/
theorem txDone_memoized_witness :
    envW.kindOf 2 = RawKind.transaction
    ∧ (cacheDonePromiseForTransaction (cacheDonePromiseForTransaction St.init 2) 2
        = cacheDonePromiseForTransaction St.init 2
       ∧ (∀ vs vs' : List Val,
          ((finalTraps envW).get
              (wrapTrace envW (cacheDonePromiseForTransaction St.init 2) vs).1 2
              (PropKey.str "done")).1
            = ((finalTraps envW).get
              (wrapTrace envW (cacheDonePromiseForTransaction St.init 2) vs').1 2
              (PropKey.str "done")).1)
       ∧ txDoneStep Val.undef PromiseState.init TxEvent.complete
           = ⟨some (Sum.inl Val.undef), false⟩
       ∧ txDoneStep Val.undef PromiseState.init TxEvent.failure
           = ⟨some (Sum.inr Val.undef), false⟩
       ∧ txDoneStep Val.undef PromiseState.init TxEvent.abort
           = ⟨some (Sum.inr Val.undef), false⟩) :=
  ⟨by decide, txDone_memoized envW St.init 2 Val.undef (by decide)⟩

/-- C8: every element the iterate generator publishes is the single facade
proxy allocated before its loop, so a consumer-held reference to the
facade stays valid across all steps of one sequence. -/
theorem iterate_facade_identity (s : St) (first : Option Nat) (steps : List IterStep)
    (x : Val) (hx : x ∈ (iterateGen s first steps).1) :
    x = Val.proxy s.nextId := by
  cases first with
  | none => simp [iterateGen] at hx
  | some c =>
      simp only [iterateGen] at hx
      exact iterateLoop_mem (Val.proxy s.nextId) steps (some c) x hx

/-- Witness: a two-step run of the generator yields the facade twice. -/
theorem iterate_facade_identity_witness :
    Val.proxy 0 ∈ (iterateGen St.init (some 7) [⟨none, some 8⟩]).1
    ∧ Val.proxy 0 = Val.proxy St.init.nextId :=
  ⟨by decide,
   iterate_facade_identity St.init (some 7) [⟨none, some 8⟩] (Val.proxy 0) (by decide)⟩

/-- C9: a string property already present on the raw database is never
shadowed by the convenience layer: the full trap chain defers the read to
the base traps, which wrap whatever the raw property resolution yields,
and the membership check answers exactly as the raw database does. -/
theorem native_member_not_shadowed (env : Env) (s : St) (t : Nat) (p : String)
    (hdb : env.kindOf t = RawKind.database)
    (hin : env.hasProp t (PropKey.str p) = true) :
    (finalTraps env).get s t (PropKey.str p) = (baseTraps env).get s t (PropKey.str p)
    ∧ (baseTraps env).get s t (PropKey.str p)
        = wrap env s (env.getProp t (PropKey.str p))
    ∧ (finalTraps env).has t (PropKey.str p) = env.hasProp t (PropKey.str p) := by
  refine ⟨?_, ?_, ?_⟩
  · simp [finalTraps, iterTrapsLayer, dbTrapsLayer, isIteratorProp,
      potentialDatabaseExtra, hdb, hin]
  · simp [baseTraps, hdb]
  · simp [finalTraps, iterTrapsLayer, dbTrapsLayer, baseTraps, isIteratorProp,
      potentialDatabaseExtra, hdb, hin]

/-- Witness: the non-shadowing statement at the concrete database whose raw
handle owns the property name. -/
theorem native_member_not_shadowed_witness :
    envW.kindOf 0 = RawKind.database
    ∧ envW.hasProp 0 (PropKey.str "name") = true
    ∧ ((finalTraps envW).get St.init 0 (PropKey.str "name")
          = (baseTraps envW).get St.init 0 (PropKey.str "name")
       ∧ (baseTraps envW).get St.init 0 (PropKey.str "name")
          = wrap envW St.init (envW.getProp 0 (PropKey.str "name"))
       ∧ (finalTraps envW).has 0 (PropKey.str "name")
          = envW.hasProp 0 (PropKey.str "name")) :=
  ⟨by decide, by decide,
   native_member_not_shadowed envW St.init 0 "name" (by decide) (by decide)⟩

/-- C10: invoking an advance-method wrapper on an ordinary wrapped cursor
applies the raw method to the unwrapped cursor and returns a freshly
allocated future for the same pending operation that yielded the cursor
(unwrap maps the future back to that request, and a repeated call returns
a different future); when the reused request later fires success, the
future settles with the wrapped next cursor position, or with the absent
value when the end of the range was reached. The transformCache
hypothesis on the absent value reflects that a WeakMap can never hold
undefined as a key. -/
theorem cursor_advance_wrapper (env : Env) (s : St) (fid : Nat) (thisV : Val)
    (args : List Val) (cid reqId : Nat)
    (hadv : env.isAdvanceMethod fid = true)
    (hun : unwrap s thisV = some (Val.raw cid))
    (hmap : assocLookup s.cursorRequestMap thisV = some (Val.raw reqId))
    (hreq : env.kindOf reqId = RawKind.request)
    (hcu : assocLookup s.transformCache Val.undef = none) :
    (callWrappedFn env s fid thisV args).applied = some (fid, Val.raw cid, args)
    ∧ (callWrappedFn env s fid thisV args).returned = Val.promise s.nextId
    ∧ unwrap (callWrappedFn env s fid thisV args).st (Val.promise s.nextId)
        = some (Val.raw reqId)
    ∧ (callWrappedFn env (callWrappedFn env s fid thisV args).st fid thisV args).returned
        ≠ (callWrappedFn env s fid thisV args).returned
    ∧ (∀ nextC : Nat,
        (reqStep env reqId PromiseState.init (callWrappedFn env s fid thisV args).st
           (ReqEvent.success (Val.raw nextC))).1.settled
          = some (Sum.inl
              (wrap env (callWrappedFn env s fid thisV args).st (Val.raw nextC)).1))
    ∧ (reqStep env reqId PromiseState.init (callWrappedFn env s fid thisV args).st
         (ReqEvent.success Val.undef)).1.settled = some (Sum.inl Val.undef) := by
  have hw : wrap env s (Val.raw reqId)
      = (Val.promise s.nextId,
         { s with
           nextId := s.nextId + 1,
           reverseTransformCache :=
             (Val.promise s.nextId, Val.raw reqId) :: s.reverseTransformCache }) := by
    simp [wrap, hreq, promisifyRequest]
  have hcall : callWrappedFn env s fid thisV args
      = ⟨some (fid, Val.raw cid, args),
         Val.promise s.nextId,
         { s with
           nextId := s.nextId + 1,
           reverseTransformCache :=
             (Val.promise s.nextId, Val.raw reqId) :: s.reverseTransformCache }⟩ := by
    simp only [callWrappedFn, hun, hadv, if_true, hmap]
    rw [hw]
  refine ⟨by rw [hcall], by rw [hcall], ?_, ?_, ?_, ?_⟩
  · rw [hcall]
    simp [unwrap, assocLookup]
  · rw [hcall]
    have hun2 : ∃ orig, unwrap
        ({ s with
           nextId := s.nextId + 1,
           reverseTransformCache :=
             (Val.promise s.nextId, Val.raw reqId) :: s.reverseTransformCache } : St)
          thisV = some orig := by
      by_cases ht : Val.promise s.nextId = thisV
      · exact ⟨Val.raw reqId, by simp [unwrap, assocLookup, ht]⟩
      · exact ⟨Val.raw cid, by simpa [unwrap, assocLookup, ht] using hun⟩
    obtain ⟨orig, horig⟩ := hun2
    simp [callWrappedFn, horig, hadv, hmap, wrap, hreq, promisifyRequest, assocLookup]
  · intro nextC
    rw [hcall]
    rfl
  · rw [hcall]
    simp [reqStep, PromiseState.init, wrap, wrapCachable, hcu, assocLookup,
      transformCachableValue, jsIsFunction]

/-- Witness: the advance wrapper applied in a state holding one wrapped
cursor whose request is recorded in cursorRequestMap. -/
theorem cursor_advance_wrapper_witness :
    envW.isAdvanceMethod 30 = true
    ∧ unwrap
        ({ St.init with
           nextId := 1,
           reverseTransformCache := [(Val.proxy 0, Val.raw 4)],
           cursorRequestMap := [(Val.proxy 0, Val.raw 1)] } : St) (Val.proxy 0)
        = some (Val.raw 4)
    ∧ assocLookup
        ({ St.init with
           nextId := 1,
           reverseTransformCache := [(Val.proxy 0, Val.raw 4)],
           cursorRequestMap := [(Val.proxy 0, Val.raw 1)] } : St).cursorRequestMap
        (Val.proxy 0) = some (Val.raw 1)
    ∧ envW.kindOf 1 = RawKind.request
    ∧ assocLookup
        ({ St.init with
           nextId := 1,
           reverseTransformCache := [(Val.proxy 0, Val.raw 4)],
           cursorRequestMap := [(Val.proxy 0, Val.raw 1)] } : St).transformCache
        Val.undef = none
    ∧ (callWrappedFn envW
        ({ St.init with
           nextId := 1,
           reverseTransformCache := [(Val.proxy 0, Val.raw 4)],
           cursorRequestMap := [(Val.proxy 0, Val.raw 1)] } : St) 30 (Val.proxy 0)
        []).returned = Val.promise 1 :=
  ⟨by decide, by decide, by decide, by decide, by decide,
   (cursor_advance_wrapper envW
     ({ St.init with
        nextId := 1,
        reverseTransformCache := [(Val.proxy 0, Val.raw 4)],
        cursorRequestMap := [(Val.proxy 0, Val.raw 1)] } : St) 30 (Val.proxy 0) [] 4 1
     (by decide) (by decide) (by decide) (by decide) (by decide)).2.1⟩

/-- C4: a convenience write on a wrapped database opens a read-write
transaction on the named store, issues the native write against the
transaction's sole store synchronously before returning, and returns the
transaction's done future — which is distinct from the wrapped write
request's own future — and that done future resolves only once the
transaction's complete event has fired. Additionally, for a name absent
from the raw database the trap chain serves the synthesized write method
itself. -/
theorem write_returns_commit (env : Env) (s : St) (prop storeName : String)
    (args : List Val) (txRaw reqRaw dbId : Nat)
    (hw : prop ∈ writeMethods)
    (htx : env.kindOf txRaw = RawKind.transaction)
    (hreq : env.kindOf reqRaw = RawKind.request)
    (hnames : env.storeNames txRaw = [storeName])
    (hfreshC : assocLookup s.transformCache (Val.raw txRaw) = none)
    (hfreshD : assocLookup s.transactionDoneMap txRaw = none)
    (hdb : env.kindOf dbId = RawKind.database)
    (hnotin : env.hasProp dbId (PropKey.str prop) = false)
    (hcm : assocLookup s.cachedMethods prop = none) :
    ((finalTraps env).get s dbId (PropKey.str prop)).1 = Val.convFn prop
    ∧ (writeConvMethod env s prop storeName args txRaw reqRaw).returned
        = Val.promise s.nextId
    ∧ assocLookup
        (writeConvMethod env s prop storeName args txRaw reqRaw).st.transactionDoneMap
        txRaw = some s.nextId
    ∧ (∃ n, (writeConvMethod env s prop storeName args txRaw reqRaw).writeFuture
          = Val.promise n ∧ n ≠ s.nextId)
    ∧ (writeConvMethod env s prop storeName args txRaw reqRaw).calls
        = [EngineCall.openTransaction storeName TxMode.readwrite,
           EngineCall.storeMethod storeName prop args]
    ∧ (∀ (txError : Val) (evs : List TxEvent) (v : Val),
        (txDoneRun txError PromiseState.init evs).settled = some (Sum.inl v) →
        TxEvent.complete ∈ evs) := by
  have hd1 : assocLookup (wrap env s (Val.raw txRaw)).2.transactionDoneMap txRaw
      = some s.nextId := by
    simp [wrap, wrapCachable, transformCachableValue, cacheDonePromiseForTransaction,
      jsIsFunction, htx, hfreshC, hfreshD, assocLookup, isProxyableKind]
  have hn1 : (wrap env s (Val.raw txRaw)).2.nextId = s.nextId + 2 := by
    simp [wrap, wrapCachable, transformCachableValue, cacheDonePromiseForTransaction,
      jsIsFunction, htx, hfreshC, hfreshD, isProxyableKind]
  have ht2 : (finalTraps env).get (wrap env s (Val.raw txRaw)).2 txRaw (PropKey.str "store")
      = wrap env (wrap env s (Val.raw txRaw)).2
          (Val.raw (env.objectStoreOf txRaw storeName)) := by
    rw [finalTraps_get_eq_base env _ txRaw _ (by simp [htx]) (by simp [htx])
          (by simp [htx]) (by simp [htx])]
    simp [baseTraps, htx, hnames, txStoreGet, domIndex, jsTruthyStrOpt,
      rawObjectStore, coerceName]
  have hdone : ∀ s₃ : St, assocLookup s₃.transactionDoneMap txRaw = some s.nextId →
      (finalTraps env).get s₃ txRaw (PropKey.str "done") = (Val.promise s.nextId, s₃) := by
    intro s₃ h
    rw [finalTraps_get_eq_base env _ txRaw _ (by simp [htx]) (by simp [htx])
          (by simp [htx]) (by simp [htx])]
    simp [baseTraps, htx, donePropVal, h]
  have hd2 : assocLookup
      ((finalTraps env).get (wrap env s (Val.raw txRaw)).2 txRaw
        (PropKey.str "store")).2.transactionDoneMap txRaw = some s.nextId := by
    rw [ht2]
    exact wrap_doneMap_lookup env _ _ txRaw _ hd1
  have hn2 : s.nextId + 2 ≤
      ((finalTraps env).get (wrap env s (Val.raw txRaw)).2 txRaw
        (PropKey.str "store")).2.nextId := by
    rw [ht2]
    calc s.nextId + 2 = (wrap env s (Val.raw txRaw)).2.nextId := hn1.symm
    _ ≤ _ := wrap_nextId_le env _ _
  have hw3 : ∀ s₂ : St, wrap env s₂ (Val.raw reqRaw)
      = (Val.promise s₂.nextId,
         { s₂ with
           nextId := s₂.nextId + 1,
           reverseTransformCache :=
             (Val.promise s₂.nextId, Val.raw reqRaw) :: s₂.reverseTransformCache }) := by
    intro s₂
    simp [wrap, hreq, promisifyRequest]
  refine ⟨?_, ?_, ?_, ?_, rfl, ?_⟩
  · have hextra : potentialDatabaseExtra env dbId (PropKey.str prop) = true := by
      simp [potentialDatabaseExtra, hdb, hnotin]
    have hiter : isIteratorProp env dbId (PropKey.str prop) = false := by
      simp [isIteratorProp, hdb]
    have hgm : getMethod prop = some (Val.convFn prop) := by
      fin_cases hw <;> simp [getMethod, readMethods, readMethodsBase, writeMethods]
    simp [finalTraps, iterTrapsLayer, dbTrapsLayer, hiter, hextra, hcm, hgm]
  · simp only [writeConvMethod]
    rw [hdone _ (wrap_doneMap_lookup env _ (Val.raw reqRaw) txRaw _ hd2)]
  · simp only [writeConvMethod]
    rw [hdone _ (wrap_doneMap_lookup env _ (Val.raw reqRaw) txRaw _ hd2)]
    exact wrap_doneMap_lookup env _ (Val.raw reqRaw) txRaw _ hd2
  · refine ⟨((finalTraps env).get (wrap env s (Val.raw txRaw)).2 txRaw
        (PropKey.str "store")).2.nextId, ?_, ?_⟩
    · simp only [writeConvMethod]
      rw [hw3]
    · omega
  · intro txError evs v hres
    exact txDoneRun_inl_complete txError evs PromiseState.init v
      (by intro x; simp [PromiseState.init]) hres

/-- Witness: the write-returns-commit statement at the concrete database,
transaction, store and request handles. -/
theorem write_returns_commit_witness :
    "put" ∈ writeMethods
    ∧ envW.kindOf 2 = RawKind.transaction
    ∧ envW.kindOf 1 = RawKind.request
    ∧ envW.storeNames 2 = ["books"]
    ∧ assocLookup St.init.transformCache (Val.raw 2) = none
    ∧ assocLookup St.init.transactionDoneMap 2 = none
    ∧ envW.kindOf 0 = RawKind.database
    ∧ envW.hasProp 0 (PropKey.str "put") = false
    ∧ assocLookup St.init.cachedMethods "put" = none
    ∧ (writeConvMethod envW St.init "put" "books" [Val.prim 9] 2 1).returned
        = Val.promise St.init.nextId :=
  ⟨by decide, by decide, by decide, by decide, by decide, by decide, by decide,
   by decide, by decide,
   (write_returns_commit envW St.init "put" "books" [Val.prim 9] 2 1 0
     (by decide) (by decide) (by decide) (by decide) (by decide) (by decide)
     (by decide) (by decide) (by decide)).2.1⟩

end Idb
